import Mathlib

/-!
Shallow embedding of the change-tracking core of `sqlatypemodel`
(`src/sqlatypemodel/mixin/`): the suppression/batching controller
(`events.py`), the propagation protocol `safe_changed` (`events.py`),
the recursive wrapper `wrap_mutable` (`wrapping.py`), the notification
policy `should_notify_change` / `BaseMutableMixin.__setattr__`
(`inspection.py`, `mixin.py`) and the identity token `MutableState`
(`state.py`, `protocols.py`).

Python objects are modelled by explicit state records; object identity is
modelled by natural-number addresses into an explicit heap where sharing
matters; fallible calls return `Except`/`Option`.
-/

namespace Sqlatypemodel

/-! ## Suppression/batching controller (`mixin/events.py`, `mixin/mixin.py`)

Per-instance tracking state of a `BaseMutableMixin`:
`_change_suppress_level` (an int, set to 0 in `__init__`),
`_pending_change` (bool), plus a counter of how many times the
propagation protocol `safe_changed` has been invoked for this object
(`delivered`), which is the observable "notification delivery". -/

structure TState where
  suppress : Int
  pending : Bool
  delivered : Nat
deriving DecidableEq, Repr

/-- The state set by `BaseMutableMixin.__init__` (mixin.py lines 39-43):
`_change_suppress_level = 0`, `_pending_change = False`, and no
delivery has been fired yet. -/
def freshState : TState := ⟨0, false, 0⟩

/-- `events.mark_change_or_defer` (events.py lines 143-159): if
`_change_suppress_level > 0`, set `_pending_change = True` and report
`False` (deferred); otherwise report `True` (emit immediately). -/
def mark_change_or_defer (s : TState) : TState × Bool :=
  if s.suppress > 0 then ({ s with pending := true }, false) else (s, true)

/-- `BaseMutableMixin.changed` (mixin.py lines 66-70): consult
`mark_change_or_defer`; when deferred, return without delivering;
otherwise `super().changed()` runs, which invokes the propagation
protocol `safe_changed` once (protocols.py lines 88-90). -/
def changed_op (s : TState) : TState :=
  let r := mark_change_or_defer s
  if r.2 then { r.1 with delivered := r.1.delivered + 1 } else r.1

/-- Entry half of `events.batch_change_suppression` (events.py lines
123-127): read `_change_suppress_level` (default 0) and store it
incremented by one.  (The `_pending_change` attribute is initialised to
`False` if absent; in this model the attribute always exists.) -/
def batch_change_suppression_enter (s : TState) : TState :=
  { s with suppress := s.suppress + 1 }

/-- `finally` half of `events.batch_change_suppression` (events.py lines
131-140): `new_level = max(0, level - 1)` is stored back; if the new
level is exactly 0 and `_pending_change` is set, the flag is cleared and
`safe_changed` fires once. -/
def batch_change_suppression_exit (s : TState) : TState :=
  let newLevel := max 0 (s.suppress - 1)
  let s1 := { s with suppress := newLevel }
  if newLevel = 0 ∧ s1.pending then
    { s1 with pending := false, delivered := s1.delivered + 1 }
  else s1

/-- Events a tracked record can undergo: entering a `batch_changes()`
scope, leaving one, or a `changed()` notification being raised. -/
inductive Evt
| enter
| exit
| change
deriving DecidableEq, Repr

/-- One event applied to the tracking state. -/
def stepEvt (s : TState) : Evt → TState
  | .enter => batch_change_suppression_enter s
  | .exit => batch_change_suppression_exit s
  | .change => changed_op s

/-- Run a sequence of events against the tracking state. -/
def runEvts (s : TState) (t : List Evt) : TState := t.foldl stepEvt s

/-- `True` iff the event list contains at least one `changed()` call. -/
def hasChange (t : List Evt) : Bool :=
  t.any fun e => match e with | .change => true | _ => false

/-- The whole `batch_changes()` context manager (events.py lines
110-140) around a body that may raise: the entry half runs, then the
body (returning its final state and whether it raised), and the
`finally` half runs on both exit paths before the exception, if any, is
re-raised to the caller. -/
def batch_scope (body : TState → TState × Bool) (s : TState) : TState × Bool :=
  let s1 := batch_change_suppression_enter s
  let r := body s1
  (batch_change_suppression_exit r.1, r.2)

/-! ## Propagation protocol `safe_changed` (`mixin/events.py` lines 20-107)

`safe_changed` snapshots `self._parents.items()` and walks the
`(parent_ref, key)` pairs.  Each parent is modelled by the observable
behaviour of the attribute lookups and calls the loop body performs on
it.  A raised Python exception is a `CallRes.exn` carrying the
exception's class name. -/

/-- Outcome of calling a Python callable: normal return or a raised
exception (identified by its class name). -/
inductive CallRes
| ok
| exn (name : String)
deriving DecidableEq, Repr

/-- Outcome of `flag_modified(parent, key)` on the third delivery path
(events.py lines 101-107), where only `InvalidRequestError` is caught. -/
inductive FlagRes
| ok
| invalidRequestError
| otherExn (name : String)
deriving DecidableEq, Repr

/-- The loop body's view of a (resolved) parent object:
whether `getattr(parent, "changed", None)` is callable and what calling
it does; whether `getattr(parent, "obj", None)` is callable and what the
`instance = obj(); flag_modified(instance, key)` try-body does; and what
`flag_modified(parent, key)` does on the final path. -/
structure ParentObj where
  hasChanged : Bool
  changedRes : CallRes
  hasObj : Bool
  objBodyRes : CallRes
  flagRes : FlagRes
deriving DecidableEq, Repr

/-- `MutableState` (state.py lines 8-25): the hashable identity token
holding a weak reference to the parent.  In this model a token carries
the result of dereferencing that weak reference: the parent object, or
`none` once the parent has been destroyed. -/
structure MutableState where
  target : Option ParentObj
deriving DecidableEq, Repr

/-- Modelled from the spec: `MutableState.get_parent` is called by
`safe_changed` (events.py line 67) but its definition is absent from the
provided sources (state.py carries only `__init__`, `link`, `unlink`).
Spec section 4.1: "`resolve(Token) -> owner | dead`. ... Resolving a
token whose owner has been destroyed returns a sentinel meaning 'dead,'
never throws" — so it dereferences the stored weak reference and
returns the owner, or the dead sentinel (`none`); it is a total
function, it cannot raise. -/
def MutableState.get_parent (t : MutableState) : Option ParentObj := t.target

/-- A key in the `_parents` snapshot: `None`, an attribute name, or a
collection index.  `None` and the empty string are falsy in the
`if key:` tests of `safe_changed`. -/
inductive PKey
| noKey
| attr (s : String)
| idx (n : Nat)
deriving DecidableEq, Repr

/-- Python truthiness of a key (`if key:`): `None` and `""` are falsy
(an index `0` stored by `_wrap_list` would also be falsy). -/
def PKey.truthy : PKey → Bool
  | .noKey => false
  | .attr s => !(s = "")
  | .idx n => !(n = 0)

/-- A `parent_ref` key of the `_parents` snapshot: either a
`MutableState` token (events.py line 66) or a direct object. -/
inductive ParentRef
| token (t : MutableState)
| direct (p : ParentObj)
deriving DecidableEq, Repr

/-- What one iteration of the delivery loop does to the loop state. -/
inductive StepOut
| skip
| delivered
| failureCounted
| uncaught (exnName : String)
deriving DecidableEq, Repr

/-- One iteration of the `for parent_ref, key in parents_snapshot` loop
of `safe_changed` (events.py lines 62-107):

* a `MutableState` ref is resolved via `get_parent`, anything else is
  the parent itself; a `None` parent is skipped;
* a callable `changed` is called; an exception is caught by
  `except Exception as e`, logged (with `e` bound) and counted;
* else a callable `obj` leads to `instance = obj_method()` and
  `flag_modified(instance, key)`; the `except Exception:` handler then
  evaluates `logger.error("...", e)` — but `e` is unbound in that scope
  (the earlier `as e` binding is deleted when its handler exits and
  this handler binds no name), so the handler itself raises `NameError`,
  which nothing catches;
* else, for a truthy key, `flag_modified(parent, key)`; only
  `InvalidRequestError` is caught and its handler evaluates the same
  unbound `e` (`NameError` again); any other exception propagates
  directly. -/
def deliver_one (ref : ParentRef) (key : PKey) : StepOut :=
  let parent? : Option ParentObj :=
    match ref with
    | .token t => t.get_parent
    | .direct p => some p
  match parent? with
  | none => .skip
  | some p =>
    if p.hasChanged then
      match p.changedRes with
      | .ok => .delivered
      | .exn _ => .failureCounted
    else if p.hasObj then
      match p.objBodyRes with
      | .ok => .delivered
      | .exn _ => .uncaught "NameError"
    else if key.truthy then
      match p.flagRes with
      | .ok => .delivered
      | .invalidRequestError => .uncaught "NameError"
      | .otherExn n => .uncaught n
    else .skip

/-- The delivery loop of `safe_changed` with its failure ceiling
(`if failure_count >= max_failures: break`, events.py lines 62-63).
Returns the final `(failure_count, delivered_count)` or the exception
that escaped to the caller. -/
def deliver_loop (maxFailures : Nat) :
    List (ParentRef × PKey) → Nat → Nat → Except String (Nat × Nat)
  | [], fc, dc => .ok (fc, dc)
  | (ref, key) :: rest, fc, dc =>
    if maxFailures ≤ fc then .ok (fc, dc)
    else
      match deliver_one ref key with
      | .skip => deliver_loop maxFailures rest fc dc
      | .delivered => deliver_loop maxFailures rest fc (dc + 1)
      | .failureCounted => deliver_loop maxFailures rest (fc + 1) dc
      | .uncaught n => .error n

/-- `safe_changed` (events.py lines 20-107) given a successfully taken
snapshot of `self._parents.items()`: an empty snapshot returns at once,
otherwise the delivery loop runs with `failure_count = 0`.  The source's
`max_failures` parameter defaults to 10; callers here pass it
explicitly. -/
def safe_changed (snapshot : List (ParentRef × PKey))
    (maxFailures : Nat) : Except String (Nat × Nat) :=
  if snapshot.isEmpty then .ok (0, 0)
  else deliver_loop maxFailures snapshot 0 0

/-- An entry whose `parent_ref` is a token whose owner has been
destroyed. -/
def deadEntry (e : ParentRef × PKey) : Bool :=
  match e.1 with
  | .token t => t.get_parent.isNone
  | .direct _ => false

/-! ## Graph walker `wrap_mutable` (`mixin/wrapping.py`)

Python object identity and sharing are essential here, so values live in
an explicit heap: an address (`Nat`, playing the role of `id(value)`)
indexes a list of heap objects.  Containers store the addresses of their
elements, so the same address appearing twice is the same shared object,
and a list can contain its own address (a cycle). -/

/-- `constants.DEFAULT_MAX_NESTING_DEPTH` (value 100, see
src/sqlatypemodel/mixin.py line 110; `util/constants.py` itself is not
among the provided files but this constant is defined verbatim in the
in-repo historical revision). -/
def DEFAULT_MAX_NESTING_DEPTH : Nat := 100

/-- A Python object relevant to the walker:
* `atom` — a value of one of `constants._ATOMIC_TYPES`
  (str/int/float/bool/None/bytes/complex/frozenset) or any other
  non-container scalar: never wrapped;
* `rawList` / `rawDict` — a plain `list` / `dict` (no `_parents`);
* `wrappedList` / `wrappedDict` — a `KeyableMutableList` /
  `KeyableMutableDict` (types.py) whose `changed` has been patched to a
  bound method of `events.safe_changed` and which carries its
  `_parents` owner-link table;
* `record` — a `BaseMutableMixin` instance: named fields (its
  `__dict__`, in insertion order), its `_parents` table and its
  `_max_nesting_depth` attribute. -/
inductive HObj
| atom (n : Int)
| rawList (elems : List Nat)
| rawDict (entries : List (String × Nat))
| wrappedList (elems : List Nat) (parents : List (Nat × PKey))
| wrappedDict (entries : List (String × Nat)) (parents : List (Nat × PKey))
| record (fields : List (String × Nat)) (parents : List (Nat × PKey))
    (maxNestingDepth : Nat)
deriving DecidableEq, Repr

/-- The heap: address `a` denotes `heap[a]`. -/
abbrev Heap := List HObj

/-- Dereference an address (concrete inputs keep addresses in range;
out-of-range addresses read as an inert atom). -/
def lookup (h : Heap) (a : Nat) : HObj := h.getD a (.atom 0)

/-- Allocate a fresh object, returning its (new, hence unused)
address. -/
def alloc (h : Heap) (o : HObj) : Nat × Heap := (h.length, h ++ [o])

/-- Overwrite the object at an address. -/
def setObj (h : Heap) (a : Nat) (o : HObj) : Heap := h.set a o

/-- `d[parent] = key` on a `_parents` dictionary keyed by object
identity: replace the value of an existing key in place, otherwise
append (Python dict insertion semantics). -/
def set_parent_entry : List (Nat × PKey) → Nat → PKey → List (Nat × PKey)
  | [], p, k => [(p, k)]
  | (q, k0) :: rest, p, k =>
    if q = p then (p, k) :: rest else (q, k0) :: set_parent_entry rest p k

/-- `value._parents[parent] = key` for an object that has a `_parents`
table; a no-op on objects without one. -/
def link_parent (h : Heap) (a : Nat) (parent : Nat) (key : PKey) : Heap :=
  match lookup h a with
  | .wrappedList es ps =>
    setObj h a (.wrappedList es (set_parent_entry ps parent key))
  | .wrappedDict es ps =>
    setObj h a (.wrappedDict es (set_parent_entry ps parent key))
  | .record fs ps d =>
    setObj h a (.record fs (set_parent_entry ps parent key) d)
  | _ => h

/-- `hasattr(value, "_parents")`: true for the Keyable containers and
for mixin records (whose `_parents` property creates the table on
demand), false for plain containers and atoms. -/
def has_parents (h : Heap) (a : Nat) : Bool :=
  match lookup h a with
  | .wrappedList _ _ => true
  | .wrappedDict _ _ => true
  | .record _ _ _ => true
  | _ => false

/-- `inspection.is_pydantic` (inspection.py lines 29-39): mixin records
are pydantic models (their class has `model_fields`). -/
def is_pydantic (h : Heap) (a : Nat) : Bool :=
  match lookup h a with
  | .record _ _ _ => true
  | _ => false

/-- `wrapping.is_mutable_and_untracked` (wrapping.py lines 207-224):
* atoms (`type(obj) in constants._ATOMIC_TYPES`, or `None`) → `False`;
* objects with `_parents` → untracked unless
  `getattr(obj, "changed", None) is events.safe_changed`.  That
  identity test compares against the bare function, but `changed` is
  always installed as `types.MethodType(events.safe_changed, obj)` — a
  bound-method object, never identical to the bare function — so every
  `_parents`-bearing object (wrapped container or record) tests `True`;
* otherwise `isinstance(obj, (list, dict, set)) or is_pydantic(obj)`. -/
def is_mutable_and_untracked (h : Heap) (a : Nat) : Bool :=
  match lookup h a with
  | .atom _ => false
  | .rawList _ => true
  | .rawDict _ => true
  | .wrappedList _ _ => true
  | .wrappedDict _ _ => true
  | .record _ _ _ => true

/-- `getattr(parent, "_max_nesting_depth",
constants.DEFAULT_MAX_NESTING_DEPTH)` (wrapping.py lines 53-55): mixin
records carry the attribute (mixin.py line 31); the wrapper containers
and everything else do not, so the default applies to them. -/
def get_max_nesting_depth (h : Heap) (a : Nat) : Nat :=
  match lookup h a with
  | .record _ _ d => d
  | _ => DEFAULT_MAX_NESTING_DEPTH

/-- `list.__setitem__(wrapped, i, new_val)` on a wrapped list. -/
def set_list_elem (h : Heap) (w : Nat) (i : Nat) (nv : Nat) : Heap :=
  match lookup h w with
  | .wrappedList es ps => setObj h w (.wrappedList (es.set i nv) ps)
  | _ => h

/-- Replace the value stored under a string key of an association
list, keeping order (Python dict update of an existing key). -/
def set_assoc_val : List (String × Nat) → String → Nat → List (String × Nat)
  | [], _, _ => []
  | (k0, v0) :: rest, k, nv =>
    if k0 = k then (k, nv) :: rest else (k0, v0) :: set_assoc_val rest k nv

/-- `dict.__setitem__(wrapped, k, new_val)` on a wrapped dict. -/
def set_dict_entry (h : Heap) (w : Nat) (k : String) (nv : Nat) : Heap :=
  match lookup h w with
  | .wrappedDict es ps => setObj h w (.wrappedDict (set_assoc_val es k nv) ps)
  | _ => h

/-- `object.__setattr__(value, attr_name, wrapped)` on a record. -/
def set_record_field (h : Heap) (r : Nat) (name : String) (nv : Nat) : Heap :=
  match lookup h r with
  | .record fs ps d => setObj h r (.record (set_assoc_val fs name nv) ps d)
  | _ => h

/-- `constants._SKIP_ATTRS` (the union of the python-internal,
pydantic-internal and library/SQLAlchemy name sets; `util/constants.py`
is not among the provided files, the sets are taken verbatim from the
in-repo historical revision src/sqlatypemodel/mixin.py lines 47-108). -/
def SKIP_ATTRS : List String :=
  ["__dict__", "__class__", "__weakref__", "__annotations__", "__slots__",
   "__module__", "__doc__", "__qualname__", "__orig_class__", "__args__",
   "__parameters__", "__signature__", "__dir__", "__hash__", "__eq__",
   "__repr__", "__str__", "__getattribute__", "__setattr__",
   "model_config", "model_fields", "model_computed_fields", "model_extra",
   "model_fields_set", "model_post_init", "__fields__", "__fields_set__",
   "__config__", "__validators__", "__pre_root_validators__",
   "__post_root_validators__", "__schema_cache__", "__json_encoder__",
   "__custom_root_type__", "__private_attributes__",
   "_parents", "_max_nesting_depth", "_sa_instance_state", "_sa_adapter",
   "registry", "metadata"]

/-- `constants._STARTSWITCH_SKIP_ATTRS` (src/sqlatypemodel/mixin.py
lines 39-45). -/
def STARTSWITCH_SKIP_ATTRS : List String :=
  ["_sa_", "__pydantic_", "_abc_", "__private_", "_pydantic_"]

/-- `inspection.ignore_attr_name` (inspection.py lines 42-67) for the
data fields of this model: an exact skip-set member or a reserved
name-prefix match is skipped.  (The further property/callable-descriptor
test concerns class-level descriptors, which plain `__dict__` data
fields — the only fields a `record` carries here — never are.) -/
def ignore_attr_name (name : String) : Bool :=
  name ∈ SKIP_ATTRS || STARTSWITCH_SKIP_ATTRS.any fun p => name.startsWith p

/-- The pending call frames of the walker: `wrap_mutable` itself, the
body of `_wrap_trackable` after its re-link, the three per-element
loops, and the construction of the fresh list/dict wrappers.  A single
fuel-indexed step function over these frames keeps the recursion
structural (so concrete runs reduce definitionally); each frame's code
mirrors the corresponding source function. -/
inductive WTask
| mutableV (parent value : Nat) (seen : List Nat) (depth : Nat) (key : PKey)
| trackable (parent value : Nat) (fields : List (String × Nat))
    (seen : List Nat) (depth : Nat) (key : PKey)
| recordFields (value : Nat) (fields : List (String × Nat))
    (seen : List Nat) (depth : Nat)
| listNew (parent : Nat) (elems : List Nat) (seen : List Nat) (depth : Nat)
    (key : PKey)
| listItems (w i : Nat) (items : List Nat) (seen : List Nat) (depth : Nat)
| dictNew (parent : Nat) (entries : List (String × Nat)) (seen : List Nat)
    (depth : Nat) (key : PKey)
| dictItems (w : Nat) (entries : List (String × Nat)) (seen : List Nat)
    (depth : Nat)
deriving Repr

/-- One walker frame, with `fuel` bounding the recursion (a modelling
artefact: every concrete run below receives enough fuel and never
returns `none`).  The walker's result is
`(result address, heap, seen)`; `seen` is the traversal-scoped
`set[int]` of visited `id(value)`s, threaded through the whole
traversal; loop frames return their container's address.

* `.mutableV` is `wrapping.wrap_mutable` (wrapping.py lines 22-75),
  in source order:
  1. `if not is_mutable_and_untracked(value): return value`;
  2. `if id(value) in seen`: re-link (`value._parents[parent] = key`)
     only when the value has a `_parents` table, and return it as is;
  3. `if depth > getattr(parent, "_max_nesting_depth", DEFAULT):
     return value`;
  4. `seen.add(id(value))`;
  5. dispatch: an existing Mutable collection is re-parented in place
     (`_rewrap_mutable_collection`, lines 78-93: its `changed` is
     re-patched and `value._parents[parent] = key`); a
     `_parents`-bearing record goes to `_wrap_trackable` with
     `depth + 1`; an exact `list` / `dict` is copied into a fresh
     Keyable wrapper with `depth + 1`; anything else is returned
     unchanged.
* `.trackable` / `.recordFields` are `wrapping._wrap_trackable`
  (lines 96-125): `value._parents[parent] = key`, then the
  `for attr_name, attr_val in attrs.items()` loop over the record's
  `__dict__` snapshot, skipping ignored names, wrapping each field
  with the record as parent, and `object.__setattr__`-ing back any
  field whose wrapped value is a different object.
* `.listNew` / `.listItems` are `wrapping._wrap_list` (lines 128-152):
  `wrapped = KeyableMutableList(value)` — a fresh object copying the
  element references, its `changed` patched to a bound
  `events.safe_changed` and `wrapped._parents[parent] = key` — then
  the `for i, item in enumerate(wrapped)` loop wraps each element with
  the fresh wrapper as parent and key `i`, storing back via
  `list.__setitem__` any element that came back as a different object.
* `.dictNew` / `.dictItems` are `wrapping._wrap_dict` (lines 155-179):
  the dict analogue, with the dict keys as wrap keys. -/
def wrap_step : Nat → WTask → Heap → Option (Nat × Heap × List Nat)
  | 0, _, _ => none
  | fuel + 1, task, h =>
    match task with
    | .mutableV parent value seen depth key =>
      if is_mutable_and_untracked h value = false then some (value, h, seen)
      else if value ∈ seen then
        some (value,
          (if has_parents h value then link_parent h value parent key else h),
          seen)
      else if get_max_nesting_depth h parent < depth then some (value, h, seen)
      else
        let seen1 := value :: seen
        match lookup h value with
        | .wrappedList _ _ =>
          some (value, link_parent h value parent key, seen1)
        | .wrappedDict _ _ =>
          some (value, link_parent h value parent key, seen1)
        | .record fields _ _ =>
          wrap_step fuel (.trackable parent value fields seen1 (depth + 1) key) h
        | .rawList elems =>
          wrap_step fuel (.listNew parent elems seen1 (depth + 1) key) h
        | .rawDict entries =>
          wrap_step fuel (.dictNew parent entries seen1 (depth + 1) key) h
        | .atom _ => some (value, h, seen1)
    | .trackable parent value fields seen depth key =>
      let h1 := link_parent h value parent key
      match wrap_step fuel (.recordFields value fields seen depth) h1 with
      | none => none
      | some (_, h2, seen2) => some (value, h2, seen2)
    | .recordFields value fields seen depth =>
      match fields with
      | [] => some (value, h, seen)
      | (name, fval) :: rest =>
        if ignore_attr_name name then
          wrap_step fuel (.recordFields value rest seen depth) h
        else
          match wrap_step fuel (.mutableV value fval seen depth (.attr name)) h with
          | none => none
          | some (nv, h1, seen1) =>
            let h2 := if nv ≠ fval then set_record_field h1 value name nv else h1
            wrap_step fuel (.recordFields value rest seen1 depth) h2
    | .listNew parent elems seen depth key =>
      let r := alloc h (.wrappedList elems [(parent, key)])
      match wrap_step fuel (.listItems r.1 0 elems seen depth) r.2 with
      | none => none
      | some (_, h2, seen2) => some (r.1, h2, seen2)
    | .listItems w i items seen depth =>
      match items with
      | [] => some (w, h, seen)
      | item :: rest =>
        match wrap_step fuel (.mutableV w item seen depth (.idx i)) h with
        | none => none
        | some (nv, h1, seen1) =>
          let h2 := if nv ≠ item then set_list_elem h1 w i nv else h1
          wrap_step fuel (.listItems w (i + 1) rest seen1 depth) h2
    | .dictNew parent entries seen depth key =>
      let r := alloc h (.wrappedDict entries [(parent, key)])
      match wrap_step fuel (.dictItems r.1 entries seen depth) r.2 with
      | none => none
      | some (_, h2, seen2) => some (r.1, h2, seen2)
    | .dictItems w entries seen depth =>
      match entries with
      | [] => some (w, h, seen)
      | (k, v) :: rest =>
        match wrap_step fuel (.mutableV w v seen depth (.attr k)) h with
        | none => none
        | some (nv, h1, seen1) =>
          let h2 := if nv ≠ v then set_dict_entry h1 w k nv else h1
          wrap_step fuel (.dictItems w rest seen1 depth) h2

/-- `wrapping.wrap_mutable` (wrapping.py lines 22-75); see the
`.mutableV` frame of `wrap_step`. -/
def wrap_mutable (fuel parent value : Nat) (seen : List Nat) (depth : Nat)
    (key : PKey) (h : Heap) : Option (Nat × Heap × List Nat) :=
  wrap_step fuel (.mutableV parent value seen depth key) h

/-! ## Change-detection policy (`mixin/inspection.py` lines 105-127,
`mixin/mixin.py` lines 117-169)

For the notification decision only the identity of the operands and
their comparison behaviour matter, so a value is modelled as an address
plus a comparison kind. -/

/-- The comparison-relevant kind of an assigned value:
* `atomV` — `type(value) in constants._ATOMIC_TYPES`;
* `containerV` — a raw or Mutable-wrapped list/dict/set (the types
  named by `should_notify_change`'s isinstance test, and the values for
  which `is_mutable_and_untracked` is true in `__setattr__`);
* `objV payload neRaises` — any other object: `!=` compares the
  payloads, or raises when `neRaises` (a user `__ne__`/`__bool__` that
  throws). -/
inductive VKind
| atomV (n : Int)
| containerV
| objV (payload : Int) (neRaises : Bool)
deriving DecidableEq, Repr

/-- A Python value as seen by the assignment path: its identity
(`addr`) and its comparison kind. -/
structure PyV where
  addr : Nat
  kind : VKind
deriving DecidableEq, Repr

/-- The Python expression `bool(old_value != new_value)`: raises iff the
left operand's comparison raises; a container compared to a non-equal
non-container (or any value of another kind) is simply unequal — no
deep traversal happens for mixed kinds. -/
def pyNe (a b : PyV) : Except String Bool :=
  match a.kind with
  | .objV _ true => .error "ComparisonError"
  | .objV p false =>
    match b.kind with
    | .objV q _ => .ok (decide (p ≠ q))
    | _ => .ok true
  | .atomV n =>
    match b.kind with
    | .atomV m => .ok (decide (n ≠ m))
    | _ => .ok true
  | .containerV => .ok true

/-- `inspection.should_notify_change` (inspection.py lines 105-127):
identical objects → no notify; container-typed old value → always
notify; otherwise `bool(old != new)` decides, and an exception from the
comparison itself is caught and treated as "changed". -/
def should_notify_change (old new : PyV) : Bool :=
  if old.addr = new.addr then false
  else
    match old.kind with
    | .containerV => true
    | _ =>
      match pyNe old new with
      | .ok b => b
      | .error _ => true

/-- Outcome of `BaseMutableMixin.__setattr__` on a tracked (non-skipped)
field, as far as notification is concerned. -/
inductive SetOut
| noop
| set (notified : Bool)
| setThenRaised (exnName : String)
deriving DecidableEq, Repr

/-- `BaseMutableMixin.__setattr__` (mixin.py lines 117-169) on a
tracked field; `old? = none` is `constants.MISSING` (the attribute did
not exist).

* `if old_value is value: return` — nothing is stored, nothing fires;
* `type(value) in _ATOMIC_TYPES` (lines 130-136): the attribute is
  stored, then the guard `(old is not MISSING and old_value != value)
  or old is MISSING` runs the comparison directly — not through
  `should_notify_change` — so an exception from it propagates to the
  assigning caller after the store, and no notification fires;
* `is_mutable_and_untracked(value)` (lines 138-150, true for every
  container, raw or wrapped — see `is_mutable_and_untracked`): the
  value is wrapped and notification is decided by
  `should_notify_change(old_value, wrapped_value)`.  Both wrap outcomes
  (a fresh wrapper object, or `value` itself re-parented in place)
  give a `wrapped_value` of container kind whose identity differs from
  `old_value` (the `is` test above already excluded `value` itself);
  `old.addr + new.addr + 1` is one such distinct address and the
  decision depends on nothing else about it;
* otherwise (a plain object: not atomic, not a container, no
  `_parents`) the final branch (lines 163-169) stores and decides by
  `should_notify_change(old_value, value)`.

(The `hasattr(value, "_parents")` branch at lines 152-161 is
unreachable: every `_parents`-bearing value already satisfied
`is_mutable_and_untracked`, because its `changed` attribute is a bound
method and never identical to the bare function `events.safe_changed`.) -/
def setattr_notify (old? : Option PyV) (new : PyV) : SetOut :=
  match old? with
  | some old =>
    if old.addr = new.addr then .noop
    else
      match new.kind with
      | .atomV _ =>
        match pyNe old new with
        | .ok b => .set b
        | .error e => .setThenRaised e
      | .containerV =>
        .set (should_notify_change old ⟨old.addr + new.addr + 1, .containerV⟩)
      | .objV _ _ => .set (should_notify_change old new)
  | none =>
    -- `old_value is constants.MISSING`: every branch's guard
    -- short-circuits to `changed()`
    .set true

/-- Whether the assignment outcome delivered a notification. -/
def SetOut.notifies : SetOut → Bool
  | .set b => b
  | _ => false

/-! ## Identity token creation (`mixin/protocols.py` lines 70-85,
`mixin/state.py` lines 19-24) -/

/-- The owner's own value semantics, which the token must be immune to:
a payload (value equality could consult it), whether the owner is
hashable at all, and whether it uses value-based equality. -/
structure OwnerVal where
  payload : Int
  hashable : Bool
  valueEq : Bool
deriving DecidableEq, Repr

/-- A `MutableState` token as an object: its own identity (`id(token)`)
and the weakly referenced owner it was constructed over (state.py lines
19-24 store `weakref.ref(ref)` and a lock). -/
structure StateTok where
  tokId : Nat
  ref : OwnerVal
deriving DecidableEq, Repr

/-- `MutableState` defines neither `__eq__` nor `__hash__` (state.py),
so `==` falls back to `object.__eq__`: identity of the token itself,
never the owner's equality. -/
def StateTok.beq (t u : StateTok) : Bool := t.tokId == u.tokId

/-- `object.__hash__`: derived from the token's own identity, never the
owner's hash (which may not exist at all). -/
def StateTok.hash (t : StateTok) : Nat := t.tokId

/-- A host object as seen by the `_state` property: its value and the
`_state_inst` attribute if it has been created. -/
structure OwnerState where
  val : OwnerVal
  stateInst : Option StateTok
deriving DecidableEq, Repr

/-- `MutableMethods._state` (protocols.py lines 70-85): return
`object.__getattribute__(self, "_state_inst")` if present; on
`AttributeError` construct `MutableState(self)`, store it on the owner
with `object.__setattr__` (a strong reference) and return it.
`freshId` is the identity of the token object a construction would
create. -/
def state_prop (o : OwnerState) (freshId : Nat) : OwnerState × StateTok :=
  match o.stateInst with
  | some t => (o, t)
  | none =>
    let t : StateTok := ⟨freshId, o.val⟩
    ({ o with stateInst := some t }, t)

/-! ## Concrete traversal scenarios -/

/-- Diamond-sharing input: a record (address 0) assigning a raw dict
(address 1) that stores the same raw list `[1, 2]` (address 2, elements
at addresses 3 and 4) under the two keys `"a"` and `"b"`. -/
def hC2 : Heap :=
  [.record [] [] 100, .rawDict [("a", 2), ("b", 2)], .rawList [3, 4],
   .atom 1, .atom 2]

/-- The heap after `wrap_mutable` runs on the dict of `hC2`: one fresh
wrapped dict (address 5) and one fresh wrapped list (address 6, the
wrap of the first occurrence); the dict's `"a"` entry points at the
wrapper 6 while its `"b"` entry still points at the raw list 2, which
was neither wrapped nor linked. -/
def hC2res : Heap :=
  hC2 ++ [.wrappedDict [("a", 6), ("b", 2)] [(0, .attr "d")],
          .wrappedList [3, 4] [(5, .attr "a")]]

/-- Self-referential input: a record (address 0) and a raw list
(address 1) whose single element is the list itself. -/
def hC6 : Heap := [.record [] [] 100, .rawList [1]]

/-- The heap after `wrap_mutable` runs on the cyclic list of `hC6`: a
fresh wrapper (address 2) whose element is still the raw list 1; the
raw list is unchanged, unwrapped and unlinked. -/
def hC6res : Heap := hC6 ++ [.wrappedList [1] [(0, .attr "t")]]

/-- Depth-ceiling input: a record (address 0) whose
`_max_nesting_depth` is configured to `K = 1`, with field `"f"` holding
the triply nested raw list `[[[5]]]` (addresses 1, 2, 3; the atom 5 at
address 4). -/
def hC7 : Heap :=
  [.record [("f", 1)] [] 1, .rawList [2], .rawList [3], .rawList [4],
   .atom 5]

/-- The heap after `wrap_mutable` runs on the nested list of `hC7`:
every level got wrapped (addresses 5, 6, 7), including the list at
traversal depth 2 = K + 1 (the raw list at address 3, wrapped into
address 7 and linked to its parent wrapper 6). -/
def hC7res : Heap :=
  hC7 ++ [.wrappedList [6] [(0, .attr "f")],
          .wrappedList [7] [(5, .idx 0)],
          .wrappedList [4] [(6, .idx 0)]]

/-! ## Lemmas about the suppression/batching controller -/

theorem runEvts_nil (s : TState) : runEvts s [] = s := rfl

theorem runEvts_cons (s : TState) (e : Evt) (t : List Evt) :
    runEvts s (e :: t) = runEvts (stepEvt s e) t := rfl

theorem runEvts_append (s : TState) (t1 t2 : List Evt) :
    runEvts s (t1 ++ t2) = runEvts (runEvts s t1) t2 := by
  simp [runEvts, List.foldl_append]

theorem exit_suppress (s : TState) :
    (batch_change_suppression_exit s).suppress = max 0 (s.suppress - 1) := by
  simp only [batch_change_suppression_exit]
  split <;> rfl

theorem exit_no_fire (s : TState)
    (h : ¬ (max 0 (s.suppress - 1) = 0 ∧ s.pending = true)) :
    batch_change_suppression_exit s =
      { s with suppress := max 0 (s.suppress - 1) } := by
  simp only [batch_change_suppression_exit]
  rw [if_neg]
  simpa using h

theorem changed_op_suppress (s : TState) :
    (changed_op s).suppress = s.suppress := by
  unfold changed_op mark_change_or_defer
  split <;> simp

theorem stepEvt_suppress_nonneg (s : TState) (e : Evt) (h : 0 ≤ s.suppress) :
    0 ≤ (stepEvt s e).suppress := by
  cases e with
  | enter =>
    simp only [stepEvt, batch_change_suppression_enter]
    omega
  | exit =>
    simp only [stepEvt, exit_suppress]
    exact le_max_left 0 _
  | change =>
    simp only [stepEvt, changed_op_suppress]
    exact h

theorem runEvts_suppress_nonneg (t : List Evt) :
    ∀ s : TState, 0 ≤ s.suppress → 0 ≤ (runEvts s t).suppress := by
  induction t with
  | nil => intro s h; simpa [runEvts] using h
  | cons e rest ih =>
    intro s h
    rw [runEvts_cons]
    exact ih _ (stepEvt_suppress_nonneg s e h)

/-- While the suppression level stays positive along a run, no delivery
fires and the pending flag accumulates exactly the presence of a
`changed()` call. -/
theorem runEvts_suppressed (mid : List Evt) :
    ∀ s : TState,
      (∀ n, n ≤ mid.length → 0 < (runEvts s (mid.take n)).suppress) →
      (runEvts s mid).delivered = s.delivered ∧
      (runEvts s mid).pending = (s.pending || hasChange mid) := by
  induction mid with
  | nil =>
    intro s _
    simp [runEvts, hasChange]
  | cons e rest ih =>
    intro s h
    have hs : 0 < s.suppress := by
      have h0 := h 0 (Nat.zero_le _)
      simpa [runEvts] using h0
    have hstep : ∀ n, n ≤ rest.length →
        0 < (runEvts (stepEvt s e) (rest.take n)).suppress := by
      intro n hn
      have := h (n + 1) (Nat.succ_le_succ hn)
      simpa [List.take_succ_cons, runEvts_cons] using this
    cases e with
    | change =>
      have hstate : stepEvt s .change = { s with pending := true } := by
        simp [stepEvt, changed_op, mark_change_or_defer, hs]
      obtain ⟨h1, h2⟩ := ih (stepEvt s .change) hstep
      rw [runEvts_cons]
      refine ⟨by rw [h1, hstate], ?_⟩
      rw [h2, hstate]
      simp [hasChange]
    | enter =>
      have hstate : stepEvt s .enter = { s with suppress := s.suppress + 1 } := rfl
      obtain ⟨h1, h2⟩ := ih (stepEvt s .enter) hstep
      rw [runEvts_cons]
      refine ⟨by rw [h1, hstate], ?_⟩
      rw [h2, hstate]
      simp [hasChange]
    | exit =>
      have hpos0 : 0 < (stepEvt s .exit).suppress := by
        have := hstep 0 (Nat.zero_le _)
        simpa [runEvts] using this
      have hne : ¬ (max 0 (s.suppress - 1) = 0 ∧ s.pending = true) := by
        intro hc
        have : (stepEvt s .exit).suppress = max 0 (s.suppress - 1) := by
          simp [stepEvt, exit_suppress]
        omega
      have hstate : stepEvt s .exit = { s with suppress := max 0 (s.suppress - 1) } := by
        simp only [stepEvt, batch_change_suppression_exit]
        rw [if_neg]
        simpa using hne
      obtain ⟨h1, h2⟩ := ih (stepEvt s .exit) hstep
      rw [runEvts_cons]
      refine ⟨by rw [h1, hstate], ?_⟩
      rw [h2, hstate]
      simp [hasChange]

/-! ## Claim theorems: suppression/batching -/

/-- **C4**: for every tracked record and every sequence of `changed()`
notifications (at least one) raised inside a `batch_changes()` scope —
including scopes nested to any depth with mutations at every level,
expressed as an interior event list `mid` during which the suppression
level stays positive and which restores the level to the outermost
scope's value 1 — the notification delivery (`safe_changed`) fires
exactly once, only at the outermost scope exit: the completed trace has
delivered exactly 1 with level 0 and pending cleared, and every prefix
that stops before the final exit has delivered nothing. -/
theorem batch_changes_single_delivery (mid : List Evt)
    (hpos : ∀ n, n ≤ mid.length →
      0 < (runEvts freshState (Evt.enter :: mid.take n)).suppress)
    (hbal : (runEvts freshState (Evt.enter :: mid)).suppress = 1)
    (hN : hasChange mid = true) :
    (runEvts freshState (Evt.enter :: (mid ++ [Evt.exit]))).delivered = 1 ∧
    (runEvts freshState (Evt.enter :: (mid ++ [Evt.exit]))).suppress = 0 ∧
    (runEvts freshState (Evt.enter :: (mid ++ [Evt.exit]))).pending = false ∧
    ∀ n, n ≤ (Evt.enter :: mid).length →
      (runEvts freshState ((Evt.enter :: mid).take n)).delivered = 0 := by
  have hpos' : ∀ n, n ≤ mid.length →
      0 < (runEvts (stepEvt freshState Evt.enter) (mid.take n)).suppress := by
    intro n hn
    have := hpos n hn
    rwa [runEvts_cons] at this
  obtain ⟨hdel, hpend⟩ :=
    runEvts_suppressed mid (stepEvt freshState Evt.enter) hpos'
  have hsup : (runEvts (stepEvt freshState Evt.enter) mid).suppress = 1 := by
    rw [runEvts_cons] at hbal
    exact hbal
  have hpend' : (runEvts (stepEvt freshState Evt.enter) mid).pending = true := by
    rw [hpend, hN]
    rfl
  have hdel' : (runEvts (stepEvt freshState Evt.enter) mid).delivered = 0 := by
    rw [hdel]; rfl
  have hsmeq : runEvts (stepEvt freshState Evt.enter) mid = ⟨1, true, 0⟩ := by
    rcases hm : runEvts (stepEvt freshState Evt.enter) mid with ⟨a, b, c⟩
    rw [hm] at hsup hpend' hdel'
    simp only at hsup hpend' hdel'
    rw [hsup, hpend', hdel']
  have hrun : runEvts freshState (Evt.enter :: (mid ++ [Evt.exit])) =
      stepEvt (runEvts (stepEvt freshState Evt.enter) mid) Evt.exit := by
    rw [runEvts_cons, runEvts_append]
    rfl
  refine ⟨?_, ?_, ?_, ?_⟩
  · rw [hrun, hsmeq]; decide
  · rw [hrun, hsmeq]; decide
  · rw [hrun, hsmeq]; decide
  · intro n hn
    match n with
    | 0 => rfl
    | Nat.succ m =>
      have hm : m ≤ mid.length := Nat.le_of_succ_le_succ hn
      rw [List.take_succ_cons, runEvts_cons]
      have hposm : ∀ k, k ≤ (mid.take m).length →
          0 < (runEvts (stepEvt freshState Evt.enter)
                ((mid.take m).take k)).suppress := by
        intro k hk
        rw [List.take_take]
        have hk' : k ≤ min m mid.length := by
          simpa [List.length_take] using hk
        have h1 : min k m ≤ mid.length := by omega
        exact hpos' (min k m) h1
      rw [(runEvts_suppressed (mid.take m)
            (stepEvt freshState Evt.enter) hposm).1]
      rfl

/-- Witness for C4: the one-scope, one-mutation trace
`enter; change; exit` delivers exactly once. -/
theorem batch_changes_single_delivery_witness :
    (∀ n, n ≤ ([Evt.change] : List Evt).length →
      0 < (runEvts freshState (Evt.enter :: [Evt.change].take n)).suppress) ∧
    (runEvts freshState (Evt.enter :: [Evt.change])).suppress = 1 ∧
    hasChange [Evt.change] = true ∧
    (runEvts freshState (Evt.enter :: ([Evt.change] ++ [Evt.exit]))).delivered = 1 := by
  have h1 : ∀ n, n ≤ ([Evt.change] : List Evt).length →
      0 < (runEvts freshState (Evt.enter :: [Evt.change].take n)).suppress := by
    intro n hn
    have hn' : n ≤ 1 := by simpa using hn
    interval_cases n <;> decide
  have h2 : (runEvts freshState (Evt.enter :: [Evt.change])).suppress = 1 := by
    decide
  exact ⟨h1, h2, rfl, (batch_changes_single_delivery [Evt.change] h1 h2 rfl).1⟩

/-- **C5**: a `batch_changes()` scope whose body raises still runs the
scope exit on that path (the exception is re-raised only afterwards):
for any body that preserves the suppression level and raises, the
post-scope level equals the pre-scope level, and for an outermost scope
(pre-scope level 0) it returns to 0 even though the body threw. -/
theorem batch_changes_exception_safety (body : TState → TState × Bool)
    (s : TState) (h0 : 0 ≤ s.suppress)
    (hlvl : (body (batch_change_suppression_enter s)).1.suppress =
      (batch_change_suppression_enter s).suppress)
    (hraised : (body (batch_change_suppression_enter s)).2 = true) :
    (batch_scope body s).2 = true ∧
    (batch_scope body s).1.suppress = s.suppress ∧
    (s.suppress = 0 → (batch_scope body s).1.suppress = 0) := by
  have hsc : (batch_scope body s).1 =
      batch_change_suppression_exit (body (batch_change_suppression_enter s)).1 :=
    rfl
  have hsup : (batch_scope body s).1.suppress = s.suppress := by
    rw [hsc, exit_suppress, hlvl]
    show max 0 ((batch_change_suppression_enter s).suppress - 1) = s.suppress
    simp only [batch_change_suppression_enter]
    omega
  exact ⟨hraised, hsup, fun hz => by rw [hsup, hz]⟩

/-- Witness for C5: an outermost scope around a raising body that
marked a pending change: the level is back to 0 after the scope. -/
theorem batch_changes_exception_safety_witness :
    (0 : Int) ≤ freshState.suppress ∧
    ((fun t : TState => ({ t with pending := true }, true))
        (batch_change_suppression_enter freshState)).1.suppress =
      (batch_change_suppression_enter freshState).suppress ∧
    ((fun t : TState => ({ t with pending := true }, true))
        (batch_change_suppression_enter freshState)).2 = true ∧
    (batch_scope (fun t : TState => ({ t with pending := true }, true))
        freshState).1.suppress = 0 := by
  refine ⟨by decide, rfl, rfl, ?_⟩
  exact (batch_changes_exception_safety
    (fun t : TState => ({ t with pending := true }, true)) freshState
    (by decide) rfl rfl).2.2 rfl

/-- **C10**: the suppression level is never negative: every exit of the
batch-suppression scope stores `max(0, level - 1)`; a delivery is
triggered by an exit only when the stored level is exactly 0 (with a
pending change); and along every event trace from a freshly
initialised record the level stays ≥ 0. -/
theorem suppress_level_clamped_and_zero_only_delivery :
    (∀ s : TState,
      (batch_change_suppression_exit s).suppress = max 0 (s.suppress - 1)) ∧
    (∀ s : TState,
      (batch_change_suppression_exit s).delivered ≠ s.delivered →
        (batch_change_suppression_exit s).suppress = 0 ∧ s.pending = true) ∧
    (∀ t : List Evt, 0 ≤ (runEvts freshState t).suppress) := by
  refine ⟨exit_suppress, ?_, fun t => runEvts_suppress_nonneg t freshState (by decide)⟩
  intro s hne
  by_cases hc : (max 0 (s.suppress - 1) = 0 ∧ s.pending = true)
  · exact ⟨by rw [exit_suppress]; exact hc.1, hc.2⟩
  · exact absurd (by rw [exit_no_fire s hc]) hne

/-- Witness for C10: an exit from level 1 with a pending change
delivers, and does so exactly at level 0. -/
theorem suppress_level_clamped_and_zero_only_delivery_witness :
    (batch_change_suppression_exit ⟨1, true, 0⟩).delivered ≠
      (TState.mk 1 true 0).delivered ∧
    (batch_change_suppression_exit ⟨1, true, 0⟩).suppress = 0 := by
  have h : (batch_change_suppression_exit ⟨1, true, 0⟩).delivered ≠
      (TState.mk 1 true 0).delivered := by decide
  exact ⟨h,
    (suppress_level_clamped_and_zero_only_delivery.2.1 ⟨1, true, 0⟩ h).1⟩

/-! ## Claim theorems: propagation protocol -/

theorem deliver_loop_break (mf : Nat) (l : List (ParentRef × PKey))
    (fc dc : Nat) (h : mf ≤ fc) : deliver_loop mf l fc dc = .ok (fc, dc) := by
  cases l with
  | nil => rfl
  | cons e rest =>
    obtain ⟨ref, key⟩ := e
    simp [deliver_loop, h]

/-- **C1** (code-bug exhibit): a delivery failure on the hook path is
handled as the claim states — logged, counted, the loop continues and
nothing propagates — but a failure on the `obj`/`flag_modified` path
makes `safe_changed` itself raise to the mutating caller: the
`except` handler there evaluates `logger.error("...", e)` with `e`
unbound (events.py lines 96-99), so a `NameError` escapes instead of
the failure being counted. -/
theorem safe_changed_delivery_failure_raises_NameError :
    safe_changed
        [(.direct ⟨false, .ok, true, .exn "DatabaseError", .ok⟩, .attr "field")]
        10 = .error "NameError" ∧
    safe_changed
        [(.direct ⟨true, .exn "DatabaseError", false, .ok, .ok⟩, .attr "field"),
         (.direct ⟨true, .ok, false, .ok, .ok⟩, .attr "other")]
        10 = .ok (1, 1) := ⟨rfl, rfl⟩

/-- **C3**: an owner-link entry whose token's weakly referenced owner
has been destroyed resolves to the dead sentinel — `get_parent` is a
total function, it cannot raise — and the entry is silently skipped:
its delivery step is `skip`, and removing all dead-token entries from a
snapshot leaves every run of the delivery loop (any ceiling, any loop
state) unchanged. -/
theorem safe_changed_dead_token_skipped :
    (∀ k : PKey, deliver_one (.token ⟨none⟩) k = .skip) ∧
    (∀ (mf : Nat) (l : List (ParentRef × PKey)) (fc dc : Nat),
      deliver_loop mf (l.filter fun e => !deadEntry e) fc dc =
        deliver_loop mf l fc dc) := by
  constructor
  · intro k; rfl
  · intro mf l
    induction l with
    | nil => intro fc dc; rfl
    | cons e rest ih =>
      intro fc dc
      obtain ⟨ref, key⟩ := e
      by_cases hbrk : mf ≤ fc
      · rw [deliver_loop_break mf _ fc dc hbrk, deliver_loop_break mf _ fc dc hbrk]
      · by_cases hd : deadEntry (ref, key) = true
        · have hskip : deliver_one ref key = .skip := by
            cases ref with
            | token t =>
              cases ht : t.target with
              | none => simp [deliver_one, MutableState.get_parent, ht]
              | some p =>
                exfalso
                simp [deadEntry, MutableState.get_parent, ht] at hd
            | direct p => simp [deadEntry] at hd
          have hfil : ((ref, key) :: rest).filter (fun e => !deadEntry e) =
              rest.filter (fun e => !deadEntry e) := by
            simp [List.filter_cons, hd]
          rw [hfil, ih fc dc]
          simp [deliver_loop, hbrk, hskip]
        · have hfil : ((ref, key) :: rest).filter (fun e => !deadEntry e) =
              (ref, key) :: rest.filter (fun e => !deadEntry e) := by
            simp [List.filter_cons, hd]
          rw [hfil]
          cases hs : deliver_one ref key with
          | skip => simp [deliver_loop, hbrk, hs, ih]
          | delivered => simp [deliver_loop, hbrk, hs, ih]
          | failureCounted => simp [deliver_loop, hbrk, hs, ih]
          | uncaught n => simp [deliver_loop, hbrk, hs]

/-! ## Claim theorems: graph walker -/

/-- **C2** (code-bug exhibit): one traversal over a dict that stores
the same raw list under the keys `"a"` and `"b"`.  Because the
traversal-scoped `seen` is a set of ids and not a map to the produced
wrappers, the second visit returns the raw list unchanged and unlinked:
the path `"a"` reaches the fresh wrapper (address 6) while `"b"` still
reaches the raw list (address 2) — two different objects — and the raw
list has no owner-link table, so mutating it through `"b"` notifies
nobody. -/
theorem wrap_mutable_shared_second_key_left_raw :
    wrap_mutable 20 0 1 [] 0 (.attr "d") hC2 = some (5, hC2res, [2, 1]) ∧
    lookup hC2res 5 = .wrappedDict [("a", 6), ("b", 2)] [(0, .attr "d")] ∧
    lookup hC2res 2 = .rawList [3, 4] ∧
    has_parents hC2res 2 = false ∧
    (6 : Nat) ≠ 2 := by
  refine ⟨rfl, rfl, rfl, rfl, by decide⟩

/-- **C6** (code-bug exhibit): wrapping the self-referential list
`L = [L]` terminates (the run returns within fuel 10: the second visit
of `L` short-circuits on the `seen` set), but identity is not
preserved along the cycle: the produced wrapper (address 2) stores the
raw list (address 1) as its element — indexing the cycle edge yields
the raw, untracked value, not the wrapper. -/
theorem wrap_mutable_self_cycle_terminates_not_identity :
    wrap_mutable 10 0 1 [] 0 (.attr "t") hC6 = some (2, hC6res, [1]) ∧
    lookup hC6res 2 = .wrappedList [1] [(0, .attr "t")] ∧
    lookup hC6res 1 = .rawList [1] ∧
    has_parents hC6res 1 = false ∧
    (1 : Nat) ≠ 2 := by
  refine ⟨rfl, rfl, rfl, rfl, by decide⟩

/-- **C7** (code-bug exhibit): a record configured with depth ceiling
`K = 1` wrapping `[[[5]]]`: the nested depth checks read
`_max_nesting_depth` off the immediate parent — a fresh wrapper that
lacks the attribute, so the default 100 applies below the root — and
the list at traversal depth `2 = K + 1` (address 3) is wrapped into
address 7 and linked, instead of being left raw and untracked. -/
theorem wrap_mutable_depth_ceiling_not_inherited :
    get_max_nesting_depth hC7 0 = 1 ∧
    wrap_mutable 30 0 1 [] 0 (.attr "f") hC7 = some (5, hC7res, [3, 2, 1]) ∧
    lookup hC7res 7 = .wrappedList [4] [(6, .idx 0)] ∧
    get_max_nesting_depth hC7res 5 = DEFAULT_MAX_NESTING_DEPTH := by
  exact ⟨rfl, rfl, rfl, rfl⟩

/-! ## Claim theorems: change-detection policy -/

theorem pyNe_error_kind (a b : PyV) (e : String) (h : pyNe a b = .error e) :
    ∃ p : Int, a.kind = .objV p true := by
  rcases a with ⟨oa, ok⟩
  rcases b with ⟨na, nk⟩
  cases ok with
  | atomV n => cases nk <;> simp [pyNe] at h
  | containerV => simp [pyNe] at h
  | objV p r =>
    cases r with
    | false => cases nk <;> simp [pyNe] at h
    | true => exact ⟨p, rfl⟩

theorem pyNe_ok_true_vs_container (a b : PyV) (bv : Bool)
    (hb : b.kind = .containerV) (h : pyNe a b = .ok bv) : bv = true := by
  rcases a with ⟨oa, ok⟩
  rcases b with ⟨na, nk⟩
  simp only at hb
  subst hb
  cases ok with
  | atomV n => exact (Except.ok.inj h).symm
  | containerV => exact (Except.ok.inj h).symm
  | objV p r =>
    cases r with
    | false => exact (Except.ok.inj h).symm
    | true => simp [pyNe] at h

theorem should_notify_of_ok (old new : PyV) (b : Bool)
    (h1 : old.addr ≠ new.addr) (h2 : old.kind ≠ .containerV)
    (h3 : pyNe old new = .ok b) : should_notify_change old new = b := by
  unfold should_notify_change
  rw [if_neg h1]
  rcases old with ⟨oa, ok⟩
  cases ok with
  | containerV => exact absurd rfl h2
  | atomV n => rw [h3]
  | objV p r => rw [h3]

theorem should_notify_of_error (old new : PyV) (e : String)
    (h1 : old.addr ≠ new.addr) (h2 : old.kind ≠ .containerV)
    (h3 : pyNe old new = .error e) : should_notify_change old new = true := by
  unfold should_notify_change
  rw [if_neg h1]
  rcases old with ⟨oa, ok⟩
  cases ok with
  | containerV => exact absurd rfl h2
  | atomV n => rw [h3]
  | objV p r => rw [h3]

/-- **C8** counterexample: assigning an atomic value over an old value
whose comparison raises.  The claim says the change is then treated as
real and a notification fires; the code's atomic fast path (mixin.py
lines 130-136) runs `old_value != value` outside any handler, so the
exception propagates to the assigning caller after the store and no
notification fires. -/
theorem setattr_atomic_raising_eq_not_fail_open :
    setattr_notify (some ⟨1, .objV 0 true⟩) ⟨2, .atomV 7⟩ =
      .setThenRaised "ComparisonError" ∧
    (setattr_notify (some ⟨1, .objV 0 true⟩) ⟨2, .atomV 7⟩).notifies = false :=
  ⟨rfl, rfl⟩

/-- **C8** amended: for every assignment to a tracked field — identical
old and new object: no store, no notification; container-typed old
value: the change is always treated as real; otherwise the value
(in)equality verdict decides; and an exception raised by the equality
check itself is treated as "changed" (a notification fires) in every
branch **except** when the new value is of an atomic type, where
`__setattr__` compares directly instead of via `should_notify_change`
and the exception propagates to the caller (no notification).  A
missing old value always notifies. -/
theorem setattr_notify_policy_amended :
    (∀ old new : PyV, old.addr = new.addr →
      setattr_notify (some old) new = .noop) ∧
    (∀ new : PyV, setattr_notify none new = .set true) ∧
    (∀ old new : PyV, old.addr ≠ new.addr → old.kind = .containerV →
      (setattr_notify (some old) new).notifies = true) ∧
    (∀ (old new : PyV) (b : Bool), old.addr ≠ new.addr →
      old.kind ≠ .containerV → pyNe old new = .ok b →
      setattr_notify (some old) new = .set b) ∧
    (∀ (old : PyV) (a : Nat) (m : Int) (e : String), old.addr ≠ a →
      pyNe old ⟨a, .atomV m⟩ = .error e →
      setattr_notify (some old) ⟨a, .atomV m⟩ = .setThenRaised e) ∧
    (∀ (old new : PyV) (e : String), old.addr ≠ new.addr →
      (∀ n : Int, new.kind ≠ .atomV n) → pyNe old new = .error e →
      (setattr_notify (some old) new).notifies = true) := by
  refine ⟨?_, ?_, ?_, ?_, ?_, ?_⟩
  · intro old new h
    simp [setattr_notify, h]
  · intro new
    rfl
  · intro old new h1 h2
    rcases old with ⟨oa, ok⟩
    simp only at h2
    subst h2
    rcases new with ⟨na, nk⟩
    cases nk with
    | atomV m =>
      simp only [setattr_notify]
      rw [if_neg h1]
      rfl
    | containerV =>
      simp only [setattr_notify]
      rw [if_neg h1]
      show (SetOut.set (should_notify_change ⟨oa, .containerV⟩
        ⟨oa + na + 1, .containerV⟩)).notifies = true
      unfold should_notify_change
      rw [if_neg (by omega : ¬ oa = oa + na + 1)]
      rfl
    | objV p r =>
      simp only [setattr_notify]
      rw [if_neg h1]
      show (SetOut.set (should_notify_change ⟨oa, .containerV⟩
        ⟨na, .objV p r⟩)).notifies = true
      unfold should_notify_change
      rw [if_neg h1]
      rfl
  · intro old new b h1 h2 h3
    rcases new with ⟨na, nk⟩
    cases nk with
    | atomV m =>
      simp only [setattr_notify]
      rw [if_neg h1, h3]
    | containerV =>
      have hb : b = true :=
        pyNe_ok_true_vs_container old ⟨na, .containerV⟩ b rfl h3
      subst hb
      simp only [setattr_notify]
      rw [if_neg h1]
      show SetOut.set (should_notify_change old
        ⟨old.addr + na + 1, .containerV⟩) = .set true
      rcases old with ⟨oa, ok⟩
      cases ok with
      | containerV => exact absurd rfl h2
      | atomV n =>
        rw [should_notify_of_ok ⟨oa, .atomV n⟩ ⟨oa + na + 1, .containerV⟩
          true (by simp only; omega) h2 rfl]
      | objV p r =>
        cases r with
        | false =>
          rw [should_notify_of_ok ⟨oa, .objV p false⟩
            ⟨oa + na + 1, .containerV⟩ true (by simp only; omega) h2 rfl]
        | true =>
          rw [should_notify_of_error ⟨oa, .objV p true⟩
            ⟨oa + na + 1, .containerV⟩ "ComparisonError"
            (by simp only; omega) h2 rfl]
    | objV p r =>
      simp only [setattr_notify]
      rw [if_neg h1]
      rw [should_notify_of_ok _ _ b h1 h2 h3]
  · intro old a m e h1 h3
    simp only [setattr_notify]
    rw [if_neg h1, h3]
  · intro old new e h1 hna h3
    obtain ⟨p, hk⟩ := pyNe_error_kind old new e h3
    have h2 : old.kind ≠ .containerV := by rw [hk]; simp
    rcases new with ⟨na, nk⟩
    cases nk with
    | atomV m => exact absurd rfl (hna m)
    | containerV =>
      simp only [setattr_notify]
      rw [if_neg h1]
      show (SetOut.set (should_notify_change old
        ⟨old.addr + na + 1, .containerV⟩)).notifies = true
      rcases old with ⟨oa, ok⟩
      simp only at hk
      subst hk
      rw [should_notify_of_error _ _ "ComparisonError"
        (by simp only; omega) h2 rfl]
      rfl
    | objV q s =>
      simp only [setattr_notify]
      rw [if_neg h1]
      rw [should_notify_of_error _ _ e h1 h2 h3]
      rfl

/-- Witness for the amended C8: a value-equal reassignment does not
notify; replacing a container-typed old value notifies; a raising
comparison against a non-atomic new value fails open and notifies. -/
theorem setattr_notify_policy_amended_witness :
    setattr_notify (some ⟨3, .objV 5 false⟩) ⟨4, .objV 5 false⟩ = .set false ∧
    (setattr_notify (some ⟨3, .containerV⟩) ⟨4, .atomV 1⟩).notifies = true ∧
    (setattr_notify (some ⟨5, .objV 0 true⟩) ⟨6, .objV 9 false⟩).notifies = true := by
  refine ⟨?_, ?_, ?_⟩
  · exact setattr_notify_policy_amended.2.2.2.1 ⟨3, .objV 5 false⟩
      ⟨4, .objV 5 false⟩ false (by decide) (by decide) rfl
  · exact setattr_notify_policy_amended.2.2.1 ⟨3, .containerV⟩
      ⟨4, .atomV 1⟩ (by decide) rfl
  · exact setattr_notify_policy_amended.2.2.2.2.2 ⟨5, .objV 0 true⟩
      ⟨6, .objV 9 false⟩ "ComparisonError" (by decide)
      (fun n => by simp) rfl

/-! ## Claim theorems: identity token -/

/-- **C9**: token creation is idempotent — once `_state` has been
accessed, every further access returns the very same stored token
(regardless of what fresh token a new construction would have
produced), and the token is stored strongly on the owner
(`stateInst = some token` after any access) — and token equality and
hash are the token object's own identity (`tokId`), never consulting
the wrapped owner's payload, equality semantics or hashability. -/
theorem state_token_idempotent_and_identity_based :
    (∀ (o : OwnerState) (f1 f2 : Nat),
      state_prop (state_prop o f1).1 f2 =
        ((state_prop o f1).1, (state_prop o f1).2)) ∧
    (∀ (o : OwnerState) (f : Nat),
      (state_prop o f).1.stateInst = some (state_prop o f).2) ∧
    (∀ t u : StateTok, StateTok.beq t u = true ↔ t.tokId = u.tokId) ∧
    (∀ t u : StateTok, StateTok.hash t = StateTok.hash u ↔ t.tokId = u.tokId) := by
  refine ⟨?_, ?_, ?_, ?_⟩
  · intro o f1 f2
    rcases o with ⟨v, si⟩
    cases si with
    | some t => rfl
    | none => rfl
  · intro o f
    rcases o with ⟨v, si⟩
    cases si with
    | some t => rfl
    | none => rfl
  · intro t u
    simp [StateTok.beq]
  · intro t u
    exact Iff.rfl

end Sqlatypemodel
